import Mathlib

/-!
Verification of the index access-control filter of
`opensearch-mcp-server-py` (`src/tools/index_filter.py`).

The Python module is shallowly embedded below:

* `pyStrip`, `pySplit`, `strContains`, `strStartsWith`, `strDrop` model the
  Python string primitives `str.strip`, `str.split`, `in`, `str.startswith`
  and slicing used by the module.
* `fnmatch` models `fnmatch.fnmatch` (shell-glob matching of the whole name,
  with `*`, `?` and `[...]` classes; an unterminated `[` is a literal).
* `Regex`, `parseRegex`, `matchFull`, `matchPref` model the fragment of
  Python's `re` used through `re.match`: literals, escapes (`\d \D \w \W
  \s \S` and literal escapes), `.`, character sets, `* + ?` and `{m}`,
  `{m,}`, `{m,n}` quantifiers, groups, alternation, a leading `^` and a
  trailing `$`.  `re.match` anchors at the start of the string, so matching
  is prefix matching unless the pattern ends with `$`.  Syntax outside the
  fragment (or malformed syntax such as an unterminated character set) is a
  parse error, which the caller treats exactly like Python's `re.error`.
* `IndexFilterConfig`, `matchesPattern` (`_matches_pattern`),
  `check_single_index` (`_check_single_index`), `is_index_allowed`,
  `validate_index_access` and `load_index_filter_config` are the module's
  class and functions; the process-global configuration is passed explicitly,
  and the file-system / environment reads of the loader are passed in as the
  already-performed outcome (`FileReadOutcome`, env-var strings with `""`
  for an unset variable, matching `os.getenv(name, '')`).
-/

namespace IndexFilter

/-- Python's default `str.strip` whitespace characters (ASCII part). -/
def isPyWhitespace (c : Char) : Bool :=
  c = ' ' || c = '\t' || c = '\n' || c = '\x0d' || c = '\x0b' || c = '\x0c'

/-- Model of Python `str.strip()` (no arguments): drop whitespace from both ends. -/
def pyStrip (s : String) : String :=
  ⟨((s.data.dropWhile isPyWhitespace).reverse.dropWhile isPyWhitespace).reverse⟩

/-- Model of Python `str.split(sep)` for a one-character separator, on lists:
`''.split(',') = ['']`, and every separator occurrence opens a new field. -/
def pySplitList (sep : Char) : List Char → List (List Char)
  | [] => [[]]
  | c :: cs =>
    let r := pySplitList sep cs
    if c = sep then [] :: r
    else
      match r with
      | [] => [[c]]
      | g :: gs => (c :: g) :: gs

/-- Model of Python `str.split(sep)` for a one-character separator. -/
def pySplit (s : String) (sep : Char) : List String :=
  (pySplitList sep s.data).map (fun l => ⟨l⟩)

/-- Model of Python's `c in s` membership test for a single character. -/
def strContains (s : String) (c : Char) : Bool :=
  s.data.contains c

/-- Model of Python `s.startswith(pre)`. -/
def strStartsWith (s pre : String) : Bool :=
  pre.data.isPrefixOf s.data

/-- Model of Python slicing `s[n:]` (by characters). -/
def strDrop (s : String) (n : Nat) : String :=
  ⟨s.data.drop n⟩

/-! ### Shell-glob matching (`fnmatch.fnmatch`) -/

/-- Membership of a character in a list of character ranges
(a single character is the range `(c, c)`). -/
def inClass (items : List (Char × Char)) (c : Char) : Bool :=
  items.any fun it => decide (it.1 ≤ c) && decide (c ≤ it.2)

/-- Scan the body of a glob character class after any leading `!`/`]` has been
handled, producing the ranges and the remainder after the closing `]`;
`none` when the class is unterminated. -/
def globClassScan : List Char → Option (List (Char × Char) × List Char)
  | [] => none
  | ']' :: rest => some ([], rest)
  | c :: '-' :: ']' :: rest => some ([(c, c), ('-', '-')], rest)
  | c :: '-' :: d :: rest =>
    (globClassScan rest).map (fun pr => ((c, d) :: pr.1, pr.2))
  | c :: rest =>
    (globClassScan rest).map (fun pr => ((c, c) :: pr.1, pr.2))

/-- Parse a glob character class (input starts just after `[`): an optional
leading `!` negates, a `]` right after that is a literal member, and the class
runs to the next `]`.  `none` means there is no closing `]` and the `[` is a
literal, exactly as in `fnmatch.translate`. -/
def globClass (cs : List Char) : Option (Bool × List (Char × Char) × List Char) :=
  match cs with
  | '!' :: ']' :: rest =>
    (globClassScan rest).map fun pr => (true, (']', ']') :: pr.1, pr.2)
  | '!' :: rest =>
    (globClassScan rest).map fun pr => (true, pr.1, pr.2)
  | ']' :: rest =>
    (globClassScan rest).map fun pr => (false, (']', ']') :: pr.1, pr.2)
  | _ =>
    (globClassScan cs).map fun pr => (false, pr.1, pr.2)

/-- Fuel-indexed glob matcher over the whole name (`fnmatch` anchors both
ends).  Every recursive call shortens `pattern ++ name`, so fuel
`|pattern| + |name| + 1` is always sufficient. -/
def globMatch : Nat → List Char → List Char → Bool
  | 0, _, _ => false
  | fuel + 1, p, s =>
    match p, s with
    | [], [] => true
    | [], _ :: _ => false
    | '*' :: p2, s =>
      globMatch fuel p2 s ||
        (match s with
         | [] => false
         | _ :: s2 => globMatch fuel ('*' :: p2) s2)
    | '?' :: p2, _ :: s2 => globMatch fuel p2 s2
    | '?' :: _, [] => false
    | '[' :: rest, s =>
      match globClass rest with
      | some (neg, items, p2) =>
        match s with
        | [] => false
        | c :: s2 =>
          (if neg then !(inClass items c) else inClass items c) && globMatch fuel p2 s2
      | none =>
        match s with
        | '[' :: s2 => globMatch fuel rest s2
        | _ => false
    | c :: p2, d :: s2 => decide (c = d) && globMatch fuel p2 s2
    | _ :: _, [] => false

/-- Model of `fnmatch.fnmatch(name, pattern)` on POSIX (where
`os.path.normcase` is the identity): case-sensitive whole-name glob match. -/
def fnmatch (name pattern : String) : Bool :=
  globMatch (pattern.data.length + name.data.length + 1) pattern.data name.data

/-! ### Regular expressions (`re.match` fragment) -/

/-- Predicate of Python `\d` (ASCII fragment). -/
def isDigitChar (c : Char) : Bool := decide ('0' ≤ c) && decide (c ≤ '9')

/-- Predicate of Python `\w` (ASCII fragment). -/
def isWordChar (c : Char) : Bool :=
  isDigitChar c || (decide ('a' ≤ c) && decide (c ≤ 'z')) ||
    (decide ('A' ≤ c) && decide (c ≤ 'Z')) || c = '_'

/-- Predicate of Python `\s` (ASCII fragment). -/
def isSpaceChar (c : Char) : Bool :=
  c = ' ' || c = '\t' || c = '\n' || c = '\x0d' || c = '\x0b' || c = '\x0c'

/-- One-character regex atoms. -/
inductive RAtom : Type
  | anyNoNL : RAtom
  | lit : Char → RAtom
  | digit : RAtom
  | nonDigit : RAtom
  | word : RAtom
  | nonWord : RAtom
  | space : RAtom
  | nonSpace : RAtom
  | cls : Bool → List (Char × Char) → RAtom
deriving DecidableEq

/-- Does an atom accept a character? -/
def RAtom.accepts : RAtom → Char → Bool
  | .anyNoNL, c => decide (c ≠ '\n')
  | .lit d, c => decide (c = d)
  | .digit, c => isDigitChar c
  | .nonDigit, c => !isDigitChar c
  | .word, c => isWordChar c
  | .nonWord, c => !isWordChar c
  | .space, c => isSpaceChar c
  | .nonSpace, c => !isSpaceChar c
  | .cls neg items, c => if neg then !(inClass items c) else inClass items c

/-- Anchor-free regular expressions. -/
inductive Regex : Type
  | emp : Regex
  | eps : Regex
  | atom : RAtom → Regex
  | cat : Regex → Regex → Regex
  | alt : Regex → Regex → Regex
  | star : Regex → Regex
deriving DecidableEq

/-- Does the regex accept the empty word? -/
def nullable : Regex → Bool
  | .emp => false
  | .eps => true
  | .atom _ => false
  | .cat r₁ r₂ => nullable r₁ && nullable r₂
  | .alt r₁ r₂ => nullable r₁ || nullable r₂
  | .star _ => true

/-- Brzozowski derivative of a regex by one character. -/
def deriv : Regex → Char → Regex
  | .emp, _ => .emp
  | .eps, _ => .emp
  | .atom a, c => if a.accepts c then .eps else .emp
  | .cat r₁ r₂, c =>
    if nullable r₁ then .alt (.cat (deriv r₁ c) r₂) (deriv r₂ c)
    else .cat (deriv r₁ c) r₂
  | .alt r₁ r₂, c => .alt (deriv r₁ c) (deriv r₂ c)
  | .star r, c => .cat (deriv r c) (.star r)

/-- Whole-word regex acceptance, by iterated derivatives. -/
def matchFull : Regex → List Char → Bool
  | r, [] => nullable r
  | r, c :: cs => matchFull (deriv r c) cs

/-- Does the regex accept some prefix of the word?  This is the semantics of
an un-anchored `re.match`: a match must start at position 0 but need not
reach the end of the string. -/
def matchPref : Regex → List Char → Bool
  | r, [] => nullable r
  | r, c :: cs => nullable r || matchPref (deriv r c) cs

/-- Regex concatenated `m` times, then `tail`. -/
def catN (r : Regex) : Nat → Regex → Regex
  | 0, tail => tail
  | k + 1, tail => .cat r (catN r k tail)

/-- `(r | ε)` concatenated `k` times: at most `k` further repetitions. -/
def optN (r : Regex) : Nat → Regex
  | 0 => .eps
  | k + 1 => .cat (.alt r .eps) (optN r k)

/-- Unfold a bounded quantifier `r{m}` / `r{m,}` / `r{m,n}` into the core
syntax; `n < m` is Python's "min repeat greater than max repeat" error. -/
def repRange (r : Regex) (m : Nat) : Option Nat → Except String Regex
  | none => .ok (catN r m (.star r))
  | some n =>
    if n < m then .error "min repeat greater than max repeat"
    else .ok (catN r m (optN r (n - m)))

/-- Read a run of decimal digits (at least one). -/
def parseDigits : List Char → Option (Nat × List Char)
  | cs =>
    let ds := cs.takeWhile isDigitChar
    if ds.isEmpty then none
    else some (ds.foldl (fun n c => n * 10 + (c.toNat - '0'.toNat)) 0, cs.dropWhile isDigitChar)

/-- Read the inside of a `{...}` quantifier (input starts after `{`):
`m}`, `m,}`, `,n}` or `m,n}`.  `none` means the brace is not a quantifier and
stays a literal, as in Python. -/
def parseQuant (cs : List Char) : Option (Nat × Option Nat × List Char) :=
  match parseDigits cs with
  | some (m, cs1) =>
    match cs1 with
    | '}' :: rest => some (m, some m, rest)
    | ',' :: '}' :: rest => some (m, none, rest)
    | ',' :: cs2 =>
      match parseDigits cs2 with
      | some (n, '}' :: rest) => some (m, some n, rest)
      | _ => none
    | _ => none
  | none =>
    match cs with
    | ',' :: cs2 =>
      match parseDigits cs2 with
      | some (n, '}' :: rest) => some (0, some n, rest)
      | _ => none
    | _ => none

/-- Translate an escape inside a character set (after the backslash). -/
def classEscChar (c : Char) : Except String Char :=
  if c = 'n' then .ok '\n'
  else if c = 't' then .ok '\t'
  else if c = 'r' then .ok '\x0d'
  else if c = 'f' then .ok '\x0c'
  else if c = 'v' then .ok '\x0b'
  else if c = 'a' then .ok '\x07'
  else if isWordChar c then .error "unsupported escape in character set"
  else .ok c

/-- Scan the body of a regex character set after any leading `^`/`]`,
up to the closing `]`; Python raises `unterminated character set` when the
closing bracket is missing. -/
def parseClassItems : List Char → Except String (List (Char × Char) × List Char)
  | [] => .error "unterminated character set"
  | ']' :: rest => .ok ([], rest)
  | '\\' :: e :: rest =>
    match classEscChar e with
    | .ok c =>
      match parseClassItems rest with
      | .ok (items, r) => .ok ((c, c) :: items, r)
      | .error msg => .error msg
    | .error msg => .error msg
  | c :: '-' :: ']' :: rest => .ok ([(c, c), ('-', '-')], rest)
  | c :: '-' :: d :: rest =>
    if d = '\\' then .error "unsupported escape in character set"
    else
      match parseClassItems rest with
      | .ok (items, r) => .ok ((c, d) :: items, r)
      | .error msg => .error msg
  | c :: rest =>
    match parseClassItems rest with
    | .ok (items, r) => .ok ((c, c) :: items, r)
    | .error msg => .error msg

/-- Parse a regex character set (input starts after `[`): optional leading
`^` negation, a `]` right after it is a literal member. -/
def parseClass (cs : List Char) : Except String (Regex × List Char) :=
  let (neg, cs1) :=
    match cs with
    | '^' :: rest => (true, rest)
    | _ => (false, cs)
  let (lead, cs2) :=
    match cs1 with
    | ']' :: rest => ([((']' : Char), (']' : Char))], rest)
    | _ => ([], cs1)
  match parseClassItems cs2 with
  | .ok (items, rest) => .ok (.atom (.cls neg (lead ++ items)), rest)
  | .error msg => .error msg

/-- Translate an escape outside a character set (after the backslash).
Escaped letters other than the supported class/control escapes are Python's
`bad escape` / `invalid group reference` errors. -/
def parseEscape : List Char → Except String (Regex × List Char)
  | [] => .error "bad escape (end of pattern)"
  | c :: rest =>
    if c = 'd' then .ok (.atom .digit, rest)
    else if c = 'D' then .ok (.atom .nonDigit, rest)
    else if c = 'w' then .ok (.atom .word, rest)
    else if c = 'W' then .ok (.atom .nonWord, rest)
    else if c = 's' then .ok (.atom .space, rest)
    else if c = 'S' then .ok (.atom .nonSpace, rest)
    else if c = 'n' then .ok (.atom (.lit '\n'), rest)
    else if c = 't' then .ok (.atom (.lit '\t'), rest)
    else if c = 'r' then .ok (.atom (.lit '\x0d'), rest)
    else if c = 'f' then .ok (.atom (.lit '\x0c'), rest)
    else if c = 'v' then .ok (.atom (.lit '\x0b'), rest)
    else if c = 'a' then .ok (.atom (.lit '\x07'), rest)
    else if isWordChar c then .error "bad escape"
    else .ok (.atom (.lit c), rest)

/-- Parsing phase of the recursive-descent regex parser. -/
inductive PMode : Type
  | palt : PMode
  | pseq : PMode
  | pitem : PMode
deriving DecidableEq

/-- Fuel-indexed recursive-descent parser over the supported regex fragment.
`palt` parses an alternation (up to end of input or `)`), `pseq` a
concatenation (up to `|`, `)` or end of input), `pitem` a single atom with an
optional quantifier.  Every recursive call spends one unit of fuel and the
descent depth is linear in the input, so the generous fuel passed by
`parseRegex` never runs out on inputs it accepts. -/
def parseR : Nat → PMode → List Char → Except String (Regex × List Char)
  | 0, _, _ => .error "internal: parser fuel exhausted"
  | fuel + 1, .palt, cs =>
    match parseR fuel .pseq cs with
    | .ok (r, '|' :: rest) =>
      match parseR fuel .palt rest with
      | .ok (r2, rest2) => .ok (.alt r r2, rest2)
      | .error msg => .error msg
    | .ok (r, rest) => .ok (r, rest)
    | .error msg => .error msg
  | fuel + 1, .pseq, cs =>
    match cs with
    | [] => .ok (.eps, [])
    | ')' :: _ => .ok (.eps, cs)
    | '|' :: _ => .ok (.eps, cs)
    | _ =>
      match parseR fuel .pitem cs with
      | .ok (r, rest) =>
        match parseR fuel .pseq rest with
        | .ok (r2, rest2) => .ok (.cat r r2, rest2)
        | .error msg => .error msg
      | .error msg => .error msg
  | fuel + 1, .pitem, cs =>
    let base : Except String (Regex × List Char) :=
      match cs with
      | [] => .error "internal: empty item"
      | '(' :: '?' :: ':' :: rest =>
        match parseR fuel .palt rest with
        | .ok (r, ')' :: rest2) => .ok (r, rest2)
        | .ok (_, _) => .error "missing ), unterminated subpattern"
        | .error msg => .error msg
      | '(' :: '?' :: _ => .error "unsupported group extension"
      | '(' :: rest =>
        match parseR fuel .palt rest with
        | .ok (r, ')' :: rest2) => .ok (r, rest2)
        | .ok (_, _) => .error "missing ), unterminated subpattern"
        | .error msg => .error msg
      | ')' :: _ => .error "unbalanced parenthesis"
      | '*' :: _ => .error "nothing to repeat"
      | '+' :: _ => .error "nothing to repeat"
      | '?' :: _ => .error "nothing to repeat"
      | '^' :: _ => .error "unsupported anchor position for ^"
      | '$' :: _ => .error "unsupported anchor position for $"
      | '.' :: rest => .ok (.atom .anyNoNL, rest)
      | '[' :: rest => parseClass rest
      | '\\' :: rest => parseEscape rest
      | c :: rest => .ok (.atom (.lit c), rest)
    match base with
    | .ok (r, rest) =>
      match rest with
      | '*' :: rest2 => .ok (.star r, rest2)
      | '+' :: rest2 => .ok (.cat r (.star r), rest2)
      | '?' :: rest2 => .ok (.alt r .eps, rest2)
      | '{' :: rest2 =>
        match parseQuant rest2 with
        | some (m, n, rest3) =>
          match repRange r m n with
          | .ok r2 => .ok (r2, rest3)
          | .error msg => .error msg
        | none => .ok (r, rest)
      | _ => .ok (r, rest)
    | .error msg => .error msg

/-- A compiled pattern: the anchor-free core and whether the pattern ended
with a `$` anchor (in which case a match must reach the end of the string). -/
structure CompiledRegex : Type where
  core : Regex
  endAnchored : Bool
deriving DecidableEq

/-- Split a trailing unescaped `$` off the pattern. -/
def splitEndAnchor (cs : List Char) : List Char × Bool :=
  match cs.reverse with
  | '$' :: rest =>
    if (rest.takeWhile (fun c => c = '\\')).length % 2 = 0 then (rest.reverse, true)
    else (cs, false)
  | _ => (cs, false)

/-- Drop a `^` anchor at the very start of the pattern (under `re.match` a
leading `^` is redundant). -/
def stripStartAnchor : List Char → List Char
  | '^' :: rest => rest
  | cs => cs

/-- Model of `re.compile` on the supported fragment: handle the outer `^` and
`$` anchors, then run the recursive-descent parser.  An error models
`re.error`. -/
def parseRegex (R : String) : Except String CompiledRegex :=
  let (cs1, endA) := splitEndAnchor R.data
  let cs2 := stripStartAnchor cs1
  match parseR (4 * cs2.length + 8) .palt cs2 with
  | .ok (r, []) => .ok ⟨r, endA⟩
  | .ok (_, _ :: _) => .error "unbalanced parenthesis"
  | .error msg => .error msg

/-! ### The index filter (`IndexFilterConfig` and module functions) -/

/-- Embeds the `IndexFilterConfig` class: the two configured pattern lists
(`allowed_index_patterns or []`, `denied_index_patterns or []`). -/
structure IndexFilterConfig : Type where
  allowed_index_patterns : List String
  denied_index_patterns : List String
deriving DecidableEq

/-- Embeds `IndexFilterConfig._matches_pattern`: a pattern starting with
`regex:` has the tag stripped and the remainder matched with `re.match`
(anchored at the start of the name), where a compile error is caught and is a
non-match; every other pattern is an `fnmatch` glob over the whole name. -/
def matchesPattern (index_name pattern : String) : Bool :=
  if strStartsWith pattern "regex:" then
    let regex_pattern := strDrop pattern 6
    match parseRegex regex_pattern with
    | .ok cr =>
      if cr.endAnchored then matchFull cr.core index_name.data
      else matchPref cr.core index_name.data
    | .error _ => false
  else
    fnmatch index_name pattern

/-- Embeds `IndexFilterConfig._check_single_index`: names containing `*` or
`?` pass unconditionally; otherwise the denied list is scanned first and the
first match denies; otherwise a non-empty allowed list must contain a match;
with no allowed patterns the name passes. -/
def check_single_index (cfg : IndexFilterConfig) (index_name : String) :
    Bool × Option String :=
  if strContains index_name '*' || strContains index_name '?' then
    (true, none)
  else
    match cfg.denied_index_patterns.find? (fun p => matchesPattern index_name p) with
    | some pattern =>
      (false, some ("Index \"" ++ index_name ++ "\" matches denied pattern: " ++ pattern))
    | none =>
      if !cfg.allowed_index_patterns.isEmpty then
        if cfg.allowed_index_patterns.any (fun p => matchesPattern index_name p) then
          (true, none)
        else
          (false, some ("Index \"" ++ index_name ++ "\" does not match any allowed patterns"))
      else
        (true, none)

/-- The `for single_index in index_names` loop of `is_index_allowed`: return
the first failing decision, or `(True, None)` when every segment passes. -/
def checkSegments (cfg : IndexFilterConfig) : List String → Bool × Option String
  | [] => (true, none)
  | n :: ns =>
    match check_single_index cfg n with
    | (true, _) => checkSegments cfg ns
    | (false, r) => (false, r)

/-- Embeds `IndexFilterConfig.is_index_allowed`: an empty (falsy) name passes
immediately; otherwise the name is split on `,`, each segment stripped, and
the segments are checked left to right with the first denial returned. -/
def is_index_allowed (cfg : IndexFilterConfig) (index_name : String) :
    Bool × Option String :=
  if index_name = "" then (true, none)
  else checkSegments cfg ((pySplit index_name ',').map pyStrip)

/-- Python's rendering of an optional string inside an f-string
(`None` prints as `None`). -/
def pyOptionStr : Option String → String
  | some s => s
  | none => "None"

/-- Embeds `validate_index_access` (with the process-global configuration
passed explicitly): an empty (falsy) name returns immediately; a denied
decision raises `Exception(f'Index access denied: {reason}')`, modelled as
`Except.error`; otherwise the call returns normally. -/
def validate_index_access (cfg : IndexFilterConfig) (index_name : String) :
    Except String Unit :=
  if index_name = "" then .ok ()
  else
    let res := is_index_allowed cfg index_name
    if res.1 then .ok ()
    else .error ("Index access denied: " ++ pyOptionStr res.2)

/-! ### Configuration loading (`load_index_filter_config`) -/

/-- The `index_security` mapping of the YAML document, with the
`.get(..., [])` defaults already applied. -/
structure SecuritySection : Type where
  allowed_index_patterns : List String
  denied_index_patterns : List String
deriving DecidableEq

/-- The YAML document: whether it has an `index_security` key.  A falsy
document (`yaml.safe_load` returning `None` or an empty mapping) is modelled
by the `Option` wrapping in `FileReadOutcome`. -/
structure YamlConfig : Type where
  index_security : Option SecuritySection
deriving DecidableEq

/-- Outcome of `open(config_file_path)` + `yaml.safe_load`: `raised` when
either raised (missing file, unreadable file, malformed document — caught by
the surrounding `try`), `loaded none` when the document is falsy, and
`loaded (some doc)` otherwise. -/
inductive FileReadOutcome : Type
  | raised : FileReadOutcome
  | loaded : Option YamlConfig → FileReadOutcome
deriving DecidableEq

/-- The pattern pair produced by the file step of `load_index_filter_config`
(both lists stay `[]` unless a path was given, the read succeeded, the
document is truthy and it has an `index_security` section). -/
def fileConfigPatterns (config_file_path : String) (file : FileReadOutcome) :
    List String × List String :=
  if config_file_path = "" then ([], [])
  else
    match file with
    | .loaded (some config) =>
      match config.index_security with
      | some sec => (sec.allowed_index_patterns, sec.denied_index_patterns)
      | none => ([], [])
    | _ => ([], [])

/-- A JSON string-array parser covering `json.loads` on the inputs the loader
accepts in its `startswith('[')` branch: an array of JSON strings (escapes
`\" \\ \/ \n \t \r \b \f` supported).  Anything else is a decode error,
modelling `json.JSONDecodeError`. -/
def jsonStringBody : Nat → List Char → Except String (String × List Char)
  | 0, _ => .error "internal: json fuel exhausted"
  | _ + 1, [] => .error "unterminated string"
  | _ + 1, '"' :: rest => .ok ("", rest)
  | fuel + 1, '\\' :: e :: rest =>
    let dec : Except String Char :=
      if e = '"' then .ok '"'
      else if e = '\\' then .ok '\\'
      else if e = '/' then .ok '/'
      else if e = 'n' then .ok '\n'
      else if e = 't' then .ok '\t'
      else if e = 'r' then .ok '\x0d'
      else if e = 'b' then .ok '\x08'
      else if e = 'f' then .ok '\x0c'
      else .error "unsupported escape"
    match dec with
    | .ok c =>
      match jsonStringBody fuel rest with
      | .ok (s, r) => .ok (⟨c :: s.data⟩, r)
      | .error msg => .error msg
    | .error msg => .error msg
  | _ + 1, '\\' :: [] => .error "unterminated escape"
  | fuel + 1, c :: rest =>
    match jsonStringBody fuel rest with
    | .ok (s, r) => .ok (⟨c :: s.data⟩, r)
    | .error msg => .error msg

/-- Elements of the JSON array after the first string: `, "..."` repeated
until `]`. -/
def jsonArrayTail : Nat → List Char → Except String (List String × List Char)
  | 0, _ => .error "internal: json fuel exhausted"
  | fuel + 1, cs =>
    match cs.dropWhile isPyWhitespace with
    | ']' :: rest => .ok ([], rest)
    | ',' :: cs2 =>
      match (cs2.dropWhile isPyWhitespace) with
      | '"' :: cs3 =>
        match jsonStringBody (cs3.length + 1) cs3 with
        | .ok (s, cs4) =>
          match jsonArrayTail fuel cs4 with
          | .ok (ss, rest) => .ok (s :: ss, rest)
          | .error msg => .error msg
        | .error msg => .error msg
      | _ => .error "expecting string"
    | _ => .error "expecting , or ]"

/-- Model of `json.loads` restricted to arrays of strings. -/
def parseJsonStringArray (s : String) : Except String (List String) :=
  match s.data.dropWhile isPyWhitespace with
  | '[' :: cs =>
    match cs.dropWhile isPyWhitespace with
    | ']' :: rest =>
      if (rest.dropWhile isPyWhitespace).isEmpty then .ok []
      else .error "extra data"
    | '"' :: cs2 =>
      match jsonStringBody (cs2.length + 1) cs2 with
      | .ok (s0, cs3) =>
        match jsonArrayTail (cs3.length + 1) cs3 with
        | .ok (ss, rest) =>
          if (rest.dropWhile isPyWhitespace).isEmpty then .ok (s0 :: ss)
          else .error "extra data"
        | .error msg => .error msg
      | .error msg => .error msg
    | _ => .error "expecting string"
  | _ => .error "expecting array"

/-- One environment variable of the loader: unset is the empty string
(`os.getenv(name, '')`), a value starting with `[` after stripping is parsed
as a JSON array (a decode error is caught and leaves the list empty), and any
other value is split on commas with empty segments discarded. -/
def parseEnvPatterns (env : String) : List String :=
  if env = "" then []
  else if strStartsWith (pyStrip env) "[" then
    match parseJsonStringArray env with
    | .ok l => l
    | .error _ => []
  else
    ((pySplit env ',').map pyStrip).filter (fun p => !(p = ""))

/-- Embeds `load_index_filter_config`: the YAML file is consulted first (when
a path is given), and the environment variables are consulted only when the
file step produced no patterns in either field. -/
def load_index_filter_config (config_file_path : String) (file : FileReadOutcome)
    (allowed_env denied_env : String) : IndexFilterConfig :=
  let fp := fileConfigPatterns config_file_path file
  if fp.1.isEmpty && fp.2.isEmpty then
    ⟨parseEnvPatterns allowed_env, parseEnvPatterns denied_env⟩
  else
    ⟨fp.1, fp.2⟩

/-! ### Helper lemmas -/

/-- A string extended on the right still starts with the original string. -/
lemma strStartsWith_append (pre R : String) : strStartsWith (pre ++ R) pre = true := by
  simp [strStartsWith, String.data_append, List.isPrefixOf_iff_prefix]

/-- Dropping the six characters of the `regex:` tag recovers the expression. -/
lemma strDrop_regexTag (R : String) : strDrop ("regex:" ++ R) 6 = R := by
  apply String.ext
  show (("regex:" ++ R).data).drop 6 = R.data
  rw [String.data_append]
  have h6 : ("regex:".data).length = 6 := rfl
  rw [← h6, List.drop_left]

/-- Unfolding of `_matches_pattern` on a tagged pattern `"regex:" ++ R`. -/
lemma matchesPattern_regexTag (n R : String) :
    matchesPattern n ("regex:" ++ R) =
      match parseRegex R with
      | .ok cr =>
        if cr.endAnchored then matchFull cr.core n.data else matchPref cr.core n.data
      | .error _ => false := by
  unfold matchesPattern
  rw [strStartsWith_append, strDrop_regexTag]
  simp

/-- The un-anchored matcher accepts exactly the words with an accepted
prefix. -/
lemma matchPref_iff (s : List Char) (r : Regex) :
    matchPref r s = true ↔ ∃ p, p <+: s ∧ matchFull r p = true := by
  induction s generalizing r with
  | nil =>
    constructor
    · intro h
      exact ⟨[], List.nil_prefix, h⟩
    · rintro ⟨p, hp, hm⟩
      rw [List.prefix_nil] at hp
      subst hp
      exact hm
  | cons c t ih =>
    simp only [matchPref, Bool.or_eq_true]
    constructor
    · rintro (h | h)
      · exact ⟨[], List.nil_prefix, h⟩
      · obtain ⟨q, hq, hm⟩ := (ih _).mp h
        exact ⟨c :: q, List.cons_prefix_cons.mpr ⟨rfl, hq⟩, hm⟩
    · rintro ⟨p, hp, hm⟩
      cases p with
      | nil => exact Or.inl hm
      | cons d q =>
        obtain ⟨hd, hq⟩ := List.cons_prefix_cons.mp hp
        subst hd
        exact Or.inr ((ih _).mpr ⟨q, hq, hm⟩)

/-- The empty regular expression matches a prefix of every word. -/
lemma matchPref_eps (cs : List Char) : matchPref Regex.eps cs = true := by
  cases cs <;> simp [matchPref, nullable]

/-- The single-index check either passes with no reason or denies with a
reason (the Decision invariant of the data model). -/
lemma check_single_index_shape (cfg : IndexFilterConfig) (n : String) :
    check_single_index cfg n = (true, none) ∨
      ∃ r, check_single_index cfg n = (false, some r) := by
  unfold check_single_index
  split
  · exact Or.inl rfl
  · split
    · exact Or.inr ⟨_, rfl⟩
    · split
      · split
        · exact Or.inl rfl
        · exact Or.inr ⟨_, rfl⟩
      · exact Or.inl rfl

/-- Whenever the single-index check denies, it carries a reason. -/
lemma check_single_index_false_reason (cfg : IndexFilterConfig) (n : String)
    (h : (check_single_index cfg n).1 = false) :
    ∃ r, (check_single_index cfg n).2 = some r := by
  rcases check_single_index_shape cfg n with hs | ⟨r, hs⟩
  · rw [hs] at h
    simp at h
  · rw [hs]
    exact ⟨r, rfl⟩

/-- The segment loop denies only with a reason. -/
lemma checkSegments_false_reason (cfg : IndexFilterConfig) (l : List String)
    (h : (checkSegments cfg l).1 = false) :
    ∃ r, (checkSegments cfg l).2 = some r := by
  induction l with
  | nil => simp [checkSegments] at h
  | cons n ns ih =>
    rcases hc : check_single_index cfg n with ⟨b, r⟩
    cases b with
    | true =>
      rw [checkSegments, hc] at h ⊢
      exact ih h
    | false =>
      have := check_single_index_false_reason cfg n (by rw [hc])
      rw [hc] at this
      obtain ⟨r0, hr0⟩ := this
      rw [checkSegments, hc]
      exact ⟨r0, by simpa using hr0⟩

/-- The full check denies only with a reason. -/
lemma is_index_allowed_false_reason (cfg : IndexFilterConfig) (e : String)
    (h : (is_index_allowed cfg e).1 = false) :
    ∃ r, (is_index_allowed cfg e).2 = some r := by
  unfold is_index_allowed at h ⊢
  by_cases he : e = ""
  · rw [if_pos he] at h
    simp at h
  · rw [if_neg he] at h ⊢
    exact checkSegments_false_reason cfg _ h

/-- If every segment passes, the segment loop passes. -/
lemma checkSegments_all_pass (cfg : IndexFilterConfig) (l : List String)
    (h : ∀ m ∈ l, (check_single_index cfg m).1 = true) :
    checkSegments cfg l = (true, none) := by
  induction l with
  | nil => rfl
  | cons n ns ih =>
    have hn : (check_single_index cfg n).1 = true := h n (by simp)
    rcases hc : check_single_index cfg n with ⟨b, r⟩
    rw [hc] at hn
    simp only at hn
    subst hn
    rw [checkSegments, hc]
    exact ih fun m hm => h m (by simp [hm])

/-- The segment loop returns the decision of the first failing segment. -/
lemma checkSegments_first_fail (cfg : IndexFilterConfig) (l1 : List String)
    (n : String) (l2 : List String)
    (hall : ∀ m ∈ l1, (check_single_index cfg m).1 = true)
    (hn : (check_single_index cfg n).1 = false) :
    checkSegments cfg (l1 ++ n :: l2) = check_single_index cfg n := by
  induction l1 with
  | nil =>
    rcases hc : check_single_index cfg n with ⟨b, r⟩
    rw [hc] at hn
    simp only at hn
    subst hn
    rw [List.nil_append, checkSegments, hc]
  | cons m ms ih =>
    have hm : (check_single_index cfg m).1 = true := hall m (by simp)
    rcases hc : check_single_index cfg m with ⟨b, r⟩
    rw [hc] at hm
    simp only at hm
    subst hm
    rw [List.cons_append, checkSegments, hc]
    exact ih fun m2 hm2 => hall m2 (by simp [hm2])

/-! ### Claim theorems -/

/-- C1: for every policy and every non-empty index name `n` containing no `*`
or `?`, if `n` matches at least one denied pattern then the single-index
evaluation returns `allowed = false` with a reason naming `n` and the first
denied pattern it matches in configured list order (`find?` returns the first
match), regardless of the allowed patterns — deny always wins over allow. -/
theorem deny_always_wins (cfg : IndexFilterConfig) (n p : String)
    (hne : n ≠ "") (hs : strContains n '*' = false) (hq : strContains n '?' = false)
    (hf : cfg.denied_index_patterns.find? (fun q => matchesPattern n q) = some p) :
    check_single_index cfg n =
      (false, some ("Index \"" ++ n ++ "\" matches denied pattern: " ++ p)) := by
  simp [check_single_index, hs, hq, hf]

/-- Witness for C1: `logs-sensitive-data` matches the allowed pattern
`logs-*` and the denied pattern `logs-sensitive-*`, and is denied. -/
theorem deny_always_wins_witness :
    ("logs-sensitive-data" : String) ≠ ""
    ∧ strContains "logs-sensitive-data" '*' = false
    ∧ strContains "logs-sensitive-data" '?' = false
    ∧ matchesPattern "logs-sensitive-data" "logs-*" = true
    ∧ List.find? (fun q => matchesPattern "logs-sensitive-data" q) ["logs-sensitive-*"]
        = some "logs-sensitive-*"
    ∧ check_single_index ⟨["logs-*"], ["logs-sensitive-*"]⟩ "logs-sensitive-data"
        = (false, some "Index \"logs-sensitive-data\" matches denied pattern: logs-sensitive-*") :=
  ⟨by decide, by decide, by decide, by decide, by decide,
    deny_always_wins ⟨["logs-*"], ["logs-sensitive-*"]⟩ "logs-sensitive-data"
      "logs-sensitive-*" (by decide) (by decide) (by decide) (by decide)⟩

/-- C2: for every policy and every index name containing a `*` or `?`, the
single-index evaluation returns `(allowed = true, reason = none)` without
consulting the pattern lists (the configuration is arbitrary). -/
theorem wildcard_deferred (cfg : IndexFilterConfig) (n : String)
    (h : strContains n '*' = true ∨ strContains n '?' = true) :
    check_single_index cfg n = (true, none) := by
  unfold check_single_index
  rcases h with h | h <;> simp [h]

/-- Witness for C2: `metrics-*` passes even though it is itself listed as a
denied pattern. -/
theorem wildcard_deferred_witness :
    (strContains "metrics-*" '*' = true ∨ strContains "metrics-*" '?' = true)
    ∧ check_single_index ⟨["logs-*"], ["metrics-*"]⟩ "metrics-*" = (true, none) :=
  ⟨Or.inl (by decide),
    wildcard_deferred ⟨["logs-*"], ["metrics-*"]⟩ "metrics-*" (Or.inl (by decide))⟩

/-- C3: the validation gate fails exactly when the access decision denies,
the failure message is `"Index access denied: "` prefixed to the exact
denial reason (which is always present on a denial), and an empty index
expression returns normally. -/
theorem validation_gate (cfg : IndexFilterConfig) (e : String) :
    (validate_index_access cfg e = .ok () ↔ (is_index_allowed cfg e).1 = true)
    ∧ (∀ r, is_index_allowed cfg e = (false, some r) →
        validate_index_access cfg e = .error ("Index access denied: " ++ r))
    ∧ ((is_index_allowed cfg e).1 = false → ∃ r, (is_index_allowed cfg e).2 = some r)
    ∧ (e = "" → validate_index_access cfg e = .ok ()) := by
  refine ⟨?_, ?_, is_index_allowed_false_reason cfg e, ?_⟩
  · by_cases he : e = ""
    · subst he
      simp [validate_index_access, is_index_allowed]
    · unfold validate_index_access
      rw [if_neg he]
      cases h1 : (is_index_allowed cfg e).1 <;> simp [h1]
  · intro r hr
    have he : e ≠ "" := by
      intro he
      subst he
      simp [is_index_allowed] at hr
    unfold validate_index_access
    rw [if_neg he, hr]
    simp [pyOptionStr]
  · intro he
    subst he
    simp [validate_index_access]

/-- Witness for C3: with denied list `["sensitive-*"]` the gate raises on
`sensitive-data` with the exact prefixed reason, and returns on a pass. -/
theorem validation_gate_witness :
    ((validate_index_access ⟨[], ["sensitive-*"]⟩ "sensitive-data" = .ok ()
        ↔ (is_index_allowed ⟨[], ["sensitive-*"]⟩ "sensitive-data").1 = true)
      ∧ (∀ r, is_index_allowed ⟨[], ["sensitive-*"]⟩ "sensitive-data" = (false, some r) →
          validate_index_access ⟨[], ["sensitive-*"]⟩ "sensitive-data"
            = .error ("Index access denied: " ++ r))
      ∧ ((is_index_allowed ⟨[], ["sensitive-*"]⟩ "sensitive-data").1 = false →
          ∃ r, (is_index_allowed ⟨[], ["sensitive-*"]⟩ "sensitive-data").2 = some r)
      ∧ ("sensitive-data" = "" →
          validate_index_access ⟨[], ["sensitive-*"]⟩ "sensitive-data" = .ok ()))
    ∧ validate_index_access ⟨[], ["sensitive-*"]⟩ "sensitive-data"
        = .error "Index access denied: Index \"sensitive-data\" matches denied pattern: sensitive-*" :=
  ⟨validation_gate ⟨[], ["sensitive-*"]⟩ "sensitive-data",
    (validation_gate ⟨[], ["sensitive-*"]⟩ "sensitive-data").2.1
      "Index \"sensitive-data\" matches denied pattern: sensitive-*" (by decide)⟩

/-- C4: a non-empty raw expression is split on `,`, each segment stripped,
segments are evaluated left to right, the decision of the first failing
segment is returned (independently of later segments), all segments passing
yields `(true, none)`, and the empty expression passes. -/
theorem splitter_short_circuit (cfg : IndexFilterConfig) (s : String) :
    (s ≠ "" → is_index_allowed cfg s = checkSegments cfg ((pySplit s ',').map pyStrip))
    ∧ (∀ l1 n l2, s ≠ "" → (pySplit s ',').map pyStrip = l1 ++ n :: l2 →
        (∀ m ∈ l1, (check_single_index cfg m).1 = true) →
        (check_single_index cfg n).1 = false →
        is_index_allowed cfg s = check_single_index cfg n)
    ∧ ((∀ m ∈ (pySplit s ',').map pyStrip, (check_single_index cfg m).1 = true) →
        s ≠ "" → is_index_allowed cfg s = (true, none))
    ∧ is_index_allowed cfg "" = (true, none) := by
  have hbase : ∀ _ : s ≠ "",
      is_index_allowed cfg s = checkSegments cfg ((pySplit s ',').map pyStrip) := by
    intro h
    unfold is_index_allowed
    rw [if_neg h]
  refine ⟨hbase, ?_, ?_, by simp [is_index_allowed]⟩
  · intro l1 n l2 hne hsplit hall hn
    rw [hbase hne, hsplit]
    exact checkSegments_first_fail cfg l1 n l2 hall hn
  · intro hall hne
    rw [hbase hne]
    exact checkSegments_all_pass cfg _ hall

/-- Witness for C4: `"logs-public,logs-sensitive-data"` with
allowed `["logs-*"]`, denied `["logs-sensitive-*"]` returns the denial of the
second segment, whose reason names `logs-sensitive-data`. -/
theorem splitter_short_circuit_witness :
    ("logs-public,logs-sensitive-data" : String) ≠ ""
    ∧ (pySplit "logs-public,logs-sensitive-data" ',').map pyStrip
        = ["logs-public"] ++ "logs-sensitive-data" :: []
    ∧ (∀ m ∈ ["logs-public"],
        (check_single_index ⟨["logs-*"], ["logs-sensitive-*"]⟩ m).1 = true)
    ∧ (check_single_index ⟨["logs-*"], ["logs-sensitive-*"]⟩ "logs-sensitive-data").1 = false
    ∧ is_index_allowed ⟨["logs-*"], ["logs-sensitive-*"]⟩ "logs-public,logs-sensitive-data"
        = check_single_index ⟨["logs-*"], ["logs-sensitive-*"]⟩ "logs-sensitive-data" :=
  ⟨by decide, by decide, by decide, by decide,
    (splitter_short_circuit ⟨["logs-*"], ["logs-sensitive-*"]⟩
        "logs-public,logs-sensitive-data").2.1
      ["logs-public"] "logs-sensitive-data" [] (by decide) (by decide)
      (by decide) (by decide)⟩

/-- C5 counterexample: the single-index evaluator has no empty-name guard, so
with a non-empty allowed list the empty index name is denied, not passed
unconditionally as the claim states. -/
theorem empty_single_index_denied_cex :
    check_single_index ⟨["logs-*"], []⟩ ""
        = (false, some "Index \"\" does not match any allowed patterns")
    ∧ check_single_index ⟨["logs-*"], []⟩ "" ≠ (true, none)
    ∧ is_index_allowed ⟨["logs-*"], []⟩ "logs-a,"
        = (false, some "Index \"\" does not match any allowed patterns") := by
  refine ⟨by decide, by decide, by decide⟩

/-- C5 amended: the empty *full* expression passes immediately in
`is_index_allowed` (and in the gate), but the single-index evaluator has no
empty-name guard: an empty segment (such as one produced by a trailing comma)
is denied whenever the allowed list is non-empty and the empty string matches
none of the configured patterns. -/
theorem empty_name_evaluation (cfg : IndexFilterConfig) :
    is_index_allowed cfg "" = (true, none)
    ∧ validate_index_access cfg "" = .ok ()
    ∧ (cfg.allowed_index_patterns ≠ [] →
        (∀ q ∈ cfg.denied_index_patterns, matchesPattern "" q = false) →
        (∀ q ∈ cfg.allowed_index_patterns, matchesPattern "" q = false) →
        check_single_index cfg ""
          = (false, some "Index \"\" does not match any allowed patterns")) := by
  refine ⟨by simp [is_index_allowed], by simp [validate_index_access], ?_⟩
  intro hne hd ha
  have hfind : cfg.denied_index_patterns.find? (fun p => matchesPattern "" p) = none :=
    List.find?_eq_none.mpr (fun q hq => by simp [hd q hq])
  have hany : cfg.allowed_index_patterns.any (fun p => matchesPattern "" p) = false := by
    rw [Bool.eq_false_iff]
    intro hc
    obtain ⟨q, hq, hmq⟩ := List.any_eq_true.mp hc
    rw [ha q hq] at hmq
    exact Bool.false_ne_true hmq
  have hemp : cfg.allowed_index_patterns.isEmpty = false := by
    cases hl : cfg.allowed_index_patterns with
    | nil => exact absurd hl hne
    | cons x xs => rfl
  simp [check_single_index, strContains, hfind, hemp, hany]

/-- Witness for C5 amended: with allowed `["logs-*"]` the empty expression
passes but the empty single segment is denied. -/
theorem empty_name_evaluation_witness :
    is_index_allowed ⟨["logs-*"], []⟩ "" = (true, none)
    ∧ validate_index_access ⟨["logs-*"], []⟩ "" = .ok ()
    ∧ ((["logs-*"] : List String) ≠ [] →
        (∀ q ∈ ([] : List String), matchesPattern "" q = false) →
        (∀ q ∈ (["logs-*"] : List String), matchesPattern "" q = false) →
        check_single_index ⟨["logs-*"], []⟩ ""
          = (false, some "Index \"\" does not match any allowed patterns")) :=
  empty_name_evaluation ⟨["logs-*"], []⟩

/-- C6: a tagged pattern `regex:R` matches `n` exactly when `R` accepts some
prefix of `n` (anchored-start semantics; the whole name is required exactly
when `R` ends with the `$` anchor), an untagged pattern is an `fnmatch` glob
over the entire name, and on the spec's concrete scenario
`allowed = [regex:^logs-\d{4}-\d{2}$]` the name `logs-2024-01` is allowed
while `logs-2024-1` is denied. -/
theorem regex_anchored_start_glob_full (n R : String) (cr : CompiledRegex)
    (h : parseRegex R = .ok cr) :
    (cr.endAnchored = false →
      (matchesPattern n ("regex:" ++ R) = true ↔
        ∃ p, p <+: n.data ∧ matchFull cr.core p = true))
    ∧ (cr.endAnchored = true →
      (matchesPattern n ("regex:" ++ R) = true ↔ matchFull cr.core n.data = true))
    ∧ (∀ q : String, strStartsWith q "regex:" = false → matchesPattern n q = fnmatch n q)
    ∧ check_single_index ⟨["regex:^logs-\\d{4}-\\d{2}$"], []⟩ "logs-2024-01" = (true, none)
    ∧ check_single_index ⟨["regex:^logs-\\d{4}-\\d{2}$"], []⟩ "logs-2024-1"
        = (false, some "Index \"logs-2024-1\" does not match any allowed patterns")
    ∧ matchesPattern "logs-2024" "regex:logs" = true
    ∧ matchesPattern "logs-2024" "logs" = false := by
  refine ⟨?_, ?_, ?_, by decide, by decide, by decide, by decide⟩
  · intro hA
    rw [matchesPattern_regexTag, h]
    simp only [hA, if_false]
    exact matchPref_iff n.data cr.core
  · intro hA
    rw [matchesPattern_regexTag, h]
    simp [hA]
  · intro q hq
    unfold matchesPattern
    rw [hq]
    simp

/-- Witness for C6: instantiated at the empty regular expression, which
compiles to `⟨Regex.eps, false⟩`. -/
theorem regex_anchored_start_glob_full_witness :
    parseRegex "" = .ok ⟨Regex.eps, false⟩
    ∧ ((false = false →
          (matchesPattern "x" ("regex:" ++ "") = true ↔
            ∃ p, p <+: ("x" : String).data ∧ matchFull Regex.eps p = true))
      ∧ (false = true →
          (matchesPattern "x" ("regex:" ++ "") = true ↔
            matchFull Regex.eps ("x" : String).data = true))
      ∧ (∀ q : String, strStartsWith q "regex:" = false →
          matchesPattern "x" q = fnmatch "x" q)
      ∧ check_single_index ⟨["regex:^logs-\\d{4}-\\d{2}$"], []⟩ "logs-2024-01" = (true, none)
      ∧ check_single_index ⟨["regex:^logs-\\d{4}-\\d{2}$"], []⟩ "logs-2024-1"
          = (false, some "Index \"logs-2024-1\" does not match any allowed patterns")
      ∧ matchesPattern "logs-2024" "regex:logs" = true
      ∧ matchesPattern "logs-2024" "logs" = false) :=
  ⟨rfl, regex_anchored_start_glob_full "x" "" ⟨Regex.eps, false⟩ rfl⟩

/-- C7: a tagged pattern whose expression does not compile never matches (the
matcher returns `false`, a total function — no exception escapes), and such a
pattern at the head of the denied or (non-empty) allowed list leaves the
whole evaluation unchanged, so later patterns still match and still deny. -/
theorem invalid_regex_recovered (n R : String) (al dl : List String)
    (h : (parseRegex R).isOk = false) :
    matchesPattern n ("regex:" ++ R) = false
    ∧ check_single_index ⟨al, ("regex:" ++ R) :: dl⟩ n = check_single_index ⟨al, dl⟩ n
    ∧ (al ≠ [] →
        check_single_index ⟨("regex:" ++ R) :: al, dl⟩ n = check_single_index ⟨al, dl⟩ n) := by
  have h1 : matchesPattern n ("regex:" ++ R) = false := by
    rw [matchesPattern_regexTag]
    cases hp : parseRegex R with
    | ok cr =>
      rw [hp] at h
      simp [Except.isOk, Except.toBool] at h
    | error msg => rfl
  refine ⟨h1, ?_, ?_⟩
  · cases hw : (strContains n '*' || strContains n '?') with
    | true => simp [check_single_index, hw]
    | false =>
      simp only [check_single_index, hw, Bool.false_eq_true, if_false]
      rw [List.find?_cons]
      simp only [h1]
  · intro hne
    cases hl : al with
    | nil => exact absurd hl hne
    | cons x xs =>
      cases hw : (strContains n '*' || strContains n '?') with
      | true => simp [check_single_index, hw]
      | false =>
        simp only [check_single_index, hw, Bool.false_eq_true, if_false]
        cases hfind : List.find? (fun p => matchesPattern n p) dl with
        | some p => simp [hfind]
        | none => simp [hfind, h1]

/-- Witness for C7: `regex:[` (unterminated character set) does not compile,
never matches, and the later denied pattern `exact-name` still denies. -/
theorem invalid_regex_recovered_witness :
    (parseRegex "[").isOk = false
    ∧ (matchesPattern "exact-name" ("regex:" ++ "[") = false
      ∧ check_single_index ⟨["x"], ("regex:" ++ "[") :: ["exact-name"]⟩ "exact-name"
          = check_single_index ⟨["x"], ["exact-name"]⟩ "exact-name"
      ∧ ((["x"] : List String) ≠ [] →
          check_single_index ⟨("regex:" ++ "[") :: ["x"], ["exact-name"]⟩ "exact-name"
            = check_single_index ⟨["x"], ["exact-name"]⟩ "exact-name"))
    ∧ (check_single_index ⟨["x"], ("regex:" ++ "[") :: ["exact-name"]⟩ "exact-name").1 = false :=
  ⟨by decide, invalid_regex_recovered "exact-name" "[" ["x"] ["exact-name"] (by decide),
    by decide⟩

/-- When the file step yields no patterns at all, the loader builds the
policy from the two environment variables. -/
lemma load_of_fileEmpty (path : String) (file : FileReadOutcome) (e1 e2 : String)
    (h : fileConfigPatterns path file = ([], [])) :
    load_index_filter_config path file e1 e2
      = ⟨parseEnvPatterns e1, parseEnvPatterns e2⟩ := by
  simp [load_index_filter_config, h]

/-- C8: when the file read yields a non-empty pattern list in either field,
the loader builds the policy entirely from the file's two lists — for every
pair of environment values the result is the same, so the environment
variables are not consulted even for the field the file left empty; and the
environment is read exactly when the file step yields no patterns in both
fields. -/
theorem yaml_file_priority (path : String) (a d : List String) (e1 e2 : String)
    (hp : path ≠ "") (hne : ¬(a = [] ∧ d = [])) :
    load_index_filter_config path (.loaded (some ⟨some ⟨a, d⟩⟩)) e1 e2 = ⟨a, d⟩
    ∧ (∀ path2 file en1 en2, fileConfigPatterns path2 file = ([], []) →
        load_index_filter_config path2 file en1 en2
          = ⟨parseEnvPatterns en1, parseEnvPatterns en2⟩) := by
  constructor
  · have hfp : fileConfigPatterns path (.loaded (some ⟨some ⟨a, d⟩⟩)) = (a, d) := by
      unfold fileConfigPatterns
      rw [if_neg hp]
    have hcond : (a.isEmpty && d.isEmpty) = false := by
      cases ha : a with
      | nil =>
        cases hd : d with
        | nil => exact absurd ⟨ha, hd⟩ hne
        | cons x xs => simp
      | cons x xs => simp
    simp [load_index_filter_config, hfp, hcond]
  · intro path2 file en1 en2 hf
    exact load_of_fileEmpty path2 file en1 en2 hf

/-- Witness for C8: the file yields `allowed = ["logs-*"]`, `denied = []`;
the loader returns exactly those lists although both environment variables
are set. -/
theorem yaml_file_priority_witness :
    ("config.yml" : String) ≠ ""
    ∧ ¬((["logs-*"] : List String) = [] ∧ ([] : List String) = [])
    ∧ load_index_filter_config "config.yml"
        (.loaded (some ⟨some ⟨["logs-*"], []⟩⟩)) "[\"env-*\"]" "env-d-*"
        = ⟨["logs-*"], []⟩ :=
  ⟨by decide, by decide,
    (yaml_file_priority "config.yml" ["logs-*"] [] "[\"env-*\"]" "env-d-*"
      (by decide) (by decide)).1⟩

/-- C9: the loader is a total function of the file outcome — a raised read,
a falsy document and a document missing the `index_security` section all
fall through to the environment variables instead of propagating; with the
environment unset, a document missing the section yields the empty (allow
all) policy. -/
theorem loader_error_recovery (path e1 e2 : String) :
    load_index_filter_config path .raised e1 e2
        = ⟨parseEnvPatterns e1, parseEnvPatterns e2⟩
    ∧ load_index_filter_config path (.loaded none) e1 e2
        = ⟨parseEnvPatterns e1, parseEnvPatterns e2⟩
    ∧ (∀ doc : YamlConfig, doc.index_security = none →
        load_index_filter_config path (.loaded (some doc)) e1 e2
          = ⟨parseEnvPatterns e1, parseEnvPatterns e2⟩)
    ∧ (e1 = "" → e2 = "" → ∀ doc : YamlConfig, doc.index_security = none →
        load_index_filter_config path (.loaded (some doc)) e1 e2 = ⟨[], []⟩) := by
  have hr : fileConfigPatterns path .raised = ([], []) := by
    unfold fileConfigPatterns
    by_cases hp : path = ""
    · rw [if_pos hp]
    · rw [if_neg hp]
  have hl0 : fileConfigPatterns path (.loaded none) = ([], []) := by
    unfold fileConfigPatterns
    by_cases hp : path = ""
    · rw [if_pos hp]
    · rw [if_neg hp]
  have hdoc : ∀ doc : YamlConfig, doc.index_security = none →
      fileConfigPatterns path (.loaded (some doc)) = ([], []) := by
    intro doc hd
    unfold fileConfigPatterns
    by_cases hp : path = ""
    · rw [if_pos hp]
    · rw [if_neg hp]
      simp [hd]
  have henv : parseEnvPatterns "" = [] := by simp [parseEnvPatterns]
  refine ⟨load_of_fileEmpty path _ e1 e2 hr, load_of_fileEmpty path _ e1 e2 hl0,
    fun doc hd => load_of_fileEmpty path _ e1 e2 (hdoc doc hd), ?_⟩
  intro h1 h2 doc hd
  subst h1
  subst h2
  rw [load_of_fileEmpty path _ "" "" (hdoc doc hd), henv]

/-- Witness for C9: a concrete path with both environment variables unset. -/
theorem loader_error_recovery_witness :
    load_index_filter_config "config.yml" .raised "" ""
        = ⟨parseEnvPatterns "", parseEnvPatterns ""⟩
    ∧ load_index_filter_config "config.yml" (.loaded none) "" ""
        = ⟨parseEnvPatterns "", parseEnvPatterns ""⟩
    ∧ (∀ doc : YamlConfig, doc.index_security = none →
        load_index_filter_config "config.yml" (.loaded (some doc)) "" ""
          = ⟨parseEnvPatterns "", parseEnvPatterns ""⟩)
    ∧ (("" : String) = "" → ("" : String) = "" → ∀ doc : YamlConfig, doc.index_security = none →
        load_index_filter_config "config.yml" (.loaded (some doc)) "" "" = ⟨[], []⟩) :=
  loader_error_recovery "config.yml" "" ""

/-- C10: the bare tag `regex:` (empty expression) matches every index name,
so placing it in the denied list denies every non-empty wildcard-free name,
while placing it in the allowed list admits every such name that no denied
pattern matches. -/
theorem empty_regex_matches_everything (n : String) (hne : n ≠ "")
    (hs : strContains n '*' = false) (hq : strContains n '?' = false) :
    (∀ m : String, matchesPattern m "regex:" = true)
    ∧ (∀ cfg : IndexFilterConfig, "regex:" ∈ cfg.denied_index_patterns →
        (check_single_index cfg n).1 = false)
    ∧ (∀ cfg : IndexFilterConfig, "regex:" ∈ cfg.allowed_index_patterns →
        (∀ q ∈ cfg.denied_index_patterns, matchesPattern n q = false) →
        check_single_index cfg n = (true, none)) := by
  have hall : ∀ m : String, matchesPattern m "regex:" = true := by
    intro m
    rw [show ("regex:" : String) = "regex:" ++ "" from rfl, matchesPattern_regexTag]
    rw [show parseRegex "" = Except.ok ⟨Regex.eps, false⟩ from rfl]
    simp [matchPref_eps]
  refine ⟨hall, ?_, ?_⟩
  · intro cfg hmem
    have hsome : (List.find? (fun q => matchesPattern n q) cfg.denied_index_patterns).isSome
        = true :=
      List.find?_isSome.mpr ⟨"regex:", hmem, hall n⟩
    obtain ⟨p, hp⟩ := Option.isSome_iff_exists.mp hsome
    simp [check_single_index, hs, hq, hp]
  · intro cfg hmem hd
    have hfind : List.find? (fun q => matchesPattern n q) cfg.denied_index_patterns = none :=
      List.find?_eq_none.mpr (fun q hq2 => by simp [hd q hq2])
    have hanyT : cfg.allowed_index_patterns.any (fun q => matchesPattern n q) = true :=
      List.any_eq_true.mpr ⟨"regex:", hmem, hall n⟩
    have hempF : cfg.allowed_index_patterns.isEmpty = false := by
      cases hl : cfg.allowed_index_patterns with
      | nil =>
        rw [hl] at hmem
        cases hmem
      | cons x xs => rfl
    simp [check_single_index, hs, hq, hfind, hempF, hanyT]

/-- Witness for C10: instantiated at the literal index name `a`. -/
theorem empty_regex_matches_everything_witness :
    ("a" : String) ≠ ""
    ∧ strContains "a" '*' = false
    ∧ strContains "a" '?' = false
    ∧ ((∀ m : String, matchesPattern m "regex:" = true)
      ∧ (∀ cfg : IndexFilterConfig, "regex:" ∈ cfg.denied_index_patterns →
          (check_single_index cfg "a").1 = false)
      ∧ (∀ cfg : IndexFilterConfig, "regex:" ∈ cfg.allowed_index_patterns →
          (∀ q ∈ cfg.denied_index_patterns, matchesPattern "a" q = false) →
          check_single_index cfg "a" = (true, none))) :=
  ⟨by decide, by decide, by decide,
    empty_regex_matches_everything "a" (by decide) (by decide) (by decide)⟩

end IndexFilter


